import Mathlib

/-!
# candyKV: shallow embedding and verification

A shallow embedding of the Go sources of candyKV (a Redis-protocol key-value
server) together with theorems settling the frozen claims about it.

Modelling conventions, shared by all definitions below:

* Go byte strings are Lean `String` / `List Char`; for ASCII (all inputs
  used here) and in fact for all valid UTF-8, Lean's code-point order on
  strings coincides with Go's byte-wise `<`.
* Go `float64` scores are modelled as `Int`.  The spec rejects NaN, and all
  score literals appearing in the claims are integral, so the ordered-field
  structure that the code relies on (total order, `+`, `=`) is preserved.
* Go `time.Time` / `time.Duration` are modelled as `Int` milliseconds.
* Go maps are association lists with first-match lookup; the code only ever
  looks up, updates and deletes single keys, so iteration order is
  irrelevant to every claim except KEYS, which is quantified accordingly.
* Errors are their Go `error` strings (`Except String`): the only place the
  code inspects an error is `Handler.Handle`'s `err.Error() == "EOF"` test.
* The skip list (`internal/store/skiplist.go`) is embedded at the executions
  in which every `randomLevel()` call returns 1 — an always-possible outcome
  of the geometric level draw — so the structure degenerates to its level-0
  forward chain and `insert`/`delete` act on it exactly as the source does
  at level 0.  All universally-quantified claims involving the skip list are
  settled by concrete runs, for which this family of executions is a
  faithful witness.
-/

namespace CandyKV

/-- Association-list lookup, the model of Go map read `m[k]`. -/
def lookupA {α : Type} : List (String × α) → String → Option α
  | [], _ => none
  | (k, v) :: rest, key => if k = key then some v else lookupA rest key

/-- Association-list write, the model of Go map write `m[k] = v`:
update in place if present, otherwise append. -/
def setA {α : Type} : List (String × α) → String → α → List (String × α)
  | [], key, v => [(key, v)]
  | (k, w) :: rest, key, v =>
    if k = key then (key, v) :: rest else (k, w) :: setA rest key v

/-- Association-list delete, the model of Go `delete(m, k)`. -/
def eraseA {α : Type} : List (String × α) → String → List (String × α)
  | [], _ => []
  | (k, w) :: rest, key => if k = key then rest else (k, w) :: eraseA rest key

/-! ## Ordered index: `internal/store/skiplist.go`

A node is its `(score, member)` payload; the list is the level-0 forward
chain (see the level-1 modelling convention above).  `sl.length` is the
chain's length. -/

/-- The search-key order used by `skiplist.insert` and `skiplist.delete`:
advance while `next.score < score || (next.score == score && next.member < member)`. -/
def nodeLt (node : Int × String) (score : Int) (member : String) : Bool :=
  node.1 < score || (node.1 == score && node.2 < member)

/-- `skiplist.delete(score, member)` (skiplist.go:109-147) at level 1: walk
to the first node not below `(score, member)`; if it exists and carries
`member`, unlink it and report success. -/
def slDelete (nodes : List (Int × String)) (score : Int) (member : String) :
    List (Int × String) × Bool :=
  let before := nodes.takeWhile (fun n => nodeLt n score member)
  match nodes.dropWhile (fun n => nodeLt n score member) with
  | (_, m₀) :: after =>
    if m₀ = member then (before ++ after, true) else (nodes, false)
  | [] => (nodes, false)

/-- `skiplist.insert(score, member)` (skiplist.go:46-107) at level 1, with
fuel for the source's self-recursion (`return sl.insert(score, member)`
after a score change).  The walk stops at the first node not below the new
key; only that node is examined for a duplicate member.  If it matches, the
source first overwrites `current.score = score` in place, then (when the old
score differed) deletes `(oldScore, member)` and re-inserts.  Otherwise a
fresh node is linked in at the stop position. -/
def slInsertAux : Nat → List (Int × String) → Int → String →
    List (Int × String) × Bool
  | fuel, nodes, score, member =>
    let before := nodes.takeWhile (fun n => nodeLt n score member)
    match nodes.dropWhile (fun n => nodeLt n score member) with
    | (s₀, m₀) :: after =>
      if m₀ = member then
        if s₀ = score then (nodes, false)
        else
          -- current.score = score, then sl.delete(oldScore, member)
          let nodes₁ := before ++ (score, member) :: after
          let nodes₂ := (slDelete nodes₁ s₀ member).1
          match fuel with
          | 0 => (nodes₂, false)
          | f + 1 => slInsertAux f nodes₂ score member
      else (before ++ (score, member) :: (s₀, m₀) :: after, true)
    | [] => (before ++ [(score, member)], true)

/-- `skiplist.insert`, with fuel ample for the source recursion (whose depth
is bounded by the number of stale same-member nodes, itself at most the
chain's length). -/
def slInsert (nodes : List (Int × String)) (score : Int) (member : String) :
    List (Int × String) × Bool :=
  slInsertAux (nodes.length + 1) nodes score member

/-- `skiplist.getRange(start, stop)` (skiplist.go:152-183): normalize
negative indices against the length, clamp, and collect the level-0 chain
from `start` to `stop` inclusive. -/
def slGetRange (nodes : List (Int × String)) (start stop : Int) :
    List (Int × String) :=
  let len : Int := nodes.length
  let start₁ := if start < 0 then len + start else start
  let stop₁ := if stop < 0 then len + stop else stop
  let start₂ := if start₁ < 0 then 0 else start₁
  let stop₂ := if stop₁ ≥ len then len - 1 else stop₁
  if start₂ > stop₂ then []
  else (nodes.drop start₂.toNat).take (stop₂ - start₂ + 1).toNat

/-! ## Sorted set: `SortedSet` in the store source -/

/-- `SortedSet`: a member→score dict, the skip list's level-0 chain, and the
append-only `scores`/`members` slices. -/
structure SortedSetM where
  dict : List (String × Int)
  sl : List (Int × String)
  scores : List Int
  members : List String
  deriving Repr, DecidableEq

/-- The `SortedSet` literal `&SortedSet{dict: make(...), sl: newSkiplist()}`
built by `MemoryStore.ZAdd` for an absent key. -/
def emptySS : SortedSetM := ⟨[], [], [], []⟩

/-- `SortedSet.Add(member, score)`: write the dict, insert into the skip
list, append to both slices. -/
def ssAdd (s : SortedSetM) (member : String) (score : Int) : SortedSetM :=
  { dict := setA s.dict member score
    sl := (slInsert s.sl score member).1
    scores := s.scores ++ [score]
    members := s.members ++ [member] }

/-! ## Store: `MemoryStore` in the store source -/

/-- The two value kinds held by the key table (tagged by Go's dynamic type
switch): plain strings and sorted sets. -/
inductive Value
  | str (s : String)
  | zset (ss : SortedSetM)
  deriving Repr, DecidableEq

/-- `MemoryStore`: the key→value table and the key→deadline table
(deadlines in milliseconds, see the time convention). -/
structure Store where
  data : List (String × Value)
  expires : List (String × Int)
  deriving Repr, DecidableEq

def emptyStore : Store := ⟨[], []⟩

/-- `MemoryStore.isExpired`: a key is expired when it has a deadline and
`time.Now().After(expiry)`, i.e. strictly past it. -/
def isExpired (st : Store) (now : Int) (k : String) : Bool :=
  match lookupA st.expires k with
  | some e => now > e
  | none => false

/-- `MemoryStore.Get`: reclaim if expired (deleting both entries) and
report absent; otherwise strings are returned, sorted sets are a WRONGTYPE
error, and a missing key is `none`.  (The source's `default` WRONGTYPE arm
is unreachable: only the two kinds above are ever stored.) -/
def GetM (st : Store) (now : Int) (k : String) :
    Except String (Option String) × Store :=
  if isExpired st now k then
    (.ok none, ⟨eraseA st.data k, eraseA st.expires k⟩)
  else
    match lookupA st.data k with
    | some (.str v) => (.ok (some v), st)
    | some (.zset _) =>
      (.error "WRONGTYPE Operation against a key holding a sorted set", st)
    | none => (.ok none, st)

/-- The deadline state carried by `SetOptions`: the source's `ExpiryType`
string together with the pre-computed `ExpiryTime` ("" / "KEEPTTL" / one of
the absolute-deadline kinds). -/
inductive SetExpiry
  | unset
  | keepttl
  | deadline (t : Int)
  deriving Repr, DecidableEq

structure SetOpts where
  nx : Bool := false
  xx : Bool := false
  getOld : Bool := false
  expiry : SetExpiry := .unset
  deriving Repr, DecidableEq

/-- Reads a flag through a possibly-nil options pointer, the model of Go's
`opts != nil && opts.IsFoo()`. -/
def optB {α : Type} (o : Option α) (f : α → Bool) : Bool :=
  match o with
  | some x => f x
  | none => false

/-- `MemoryStore.Set`: NX/XX gating (errors without mutating), then store
the value; KEEPTTL leaves the deadline table untouched (the source's inner
`delete` only fires when the entry is already absent), an explicit deadline
replaces it, and otherwise any deadline is cleared.  With GET the prior
value is returned. -/
def SetM (st : Store) (k : String) (v : Value) (opts : Option SetOpts) :
    Except String (Option Value) × Store :=
  let oldValue := lookupA st.data k
  if optB opts (·.nx) && oldValue.isSome then (.error "key already exists", st)
  else if optB opts (·.xx) && !oldValue.isSome then
    (.error "key does not exist", st)
  else
    let expires' :=
      match opts with
      | none => eraseA st.expires k
      | some o =>
        match o.expiry with
        | .keepttl => st.expires
        | .deadline t => setA st.expires k t
        | .unset => eraseA st.expires k
    (if optB opts (·.getOld) then .ok oldValue else .ok none,
     ⟨setA st.data k v, expires'⟩)

/-- `MemoryStore.Del`: drop both entries; the returned error is always nil. -/
def DelM (st : Store) (k : String) : Store :=
  ⟨eraseA st.data k, eraseA st.expires k⟩

structure ExpireOpts where
  nx : Bool := false
  xx : Bool := false
  gt : Bool := false
  lt : Bool := false
  deriving Repr, DecidableEq

/-- `MemoryStore.Expire` with `ttl` in milliseconds (the command layer
passes seconds × 1000): error on a missing key; NX/XX/GT/LT gating against
the existing *live* deadline (`hasExpiry` is false for an already-past
one); then `ttl ≤ 0` deletes the key, otherwise the deadline becomes
`now + ttl`. -/
def ExpireM (st : Store) (now : Int) (k : String) (ttl : Int)
    (opts : Option ExpireOpts) : Except String Unit × Store :=
  if (lookupA st.data k).isNone then (.error "key does not exist", st)
  else
    let gate : Except String Unit :=
      match opts with
      | none => .ok ()
      | some o =>
        match lookupA st.expires k with
        | some e =>
          let hasExpiry := !(now > e)
          if o.nx && hasExpiry then .error "key already has an expiry"
          else if o.xx && !hasExpiry then .error "key has no expiry"
          else if o.gt && hasExpiry && ttl ≤ e - now then
            .error "new expiry is not greater than current one"
          else if o.lt && hasExpiry && ttl ≥ e - now then
            .error "new expiry is not less than current one"
          else .ok ()
        | none =>
          if o.xx then .error "key has no expiry" else .ok ()
    match gate with
    | .error e => (.error e, st)
    | .ok () =>
      if ttl ≤ 0 then (.ok (), ⟨eraseA st.data k, eraseA st.expires k⟩)
      else (.ok (), ⟨st.data, setA st.expires k (now + ttl)⟩)

/-- `MemoryStore.TTL`: −2 for a missing key; for a present key with a
deadline, a past-or-now deadline reclaims both entries and yields −2,
otherwise the remaining time in whole seconds (`int(remaining.Seconds())`,
truncation toward zero); −1 without a deadline. -/
def TTLM (st : Store) (now : Int) (k : String) : Int × Store :=
  if (lookupA st.data k).isNone then (-2, st)
  else
    match lookupA st.expires k with
    | some e =>
      if e - now ≤ 0 then (-2, ⟨eraseA st.data k, eraseA st.expires k⟩)
      else (Int.tdiv (e - now) 1000, st)
    | none => (-1, st)

/-- Modelled from the spec: the body of `matchPattern` compiles the glob to
a Go `regexp` and runs the standard library's matcher, which is not part of
this repository; §4.C of the spec defines the intended glob semantics
(`*`, `?`, `[abc]`, `[^abc]`, `\x`), embedded here directly with fuel.
A `[` with no closing `]` is a literal `[` and its tail is re-processed,
as in the source's compiler.  No claim exercises a pattern other than
`"*"`, which the source short-circuits before reaching the regexp. -/
def globMatch : Nat → List Char → List Char → Bool
  | 0, _, _ => false
  | _ + 1, [], s => s.isEmpty
  | fuel + 1, '*' :: ps, s =>
    globMatch fuel ps s ||
      (match s with
       | [] => false
       | _ :: cs => globMatch fuel ('*' :: ps) cs)
  | fuel + 1, '?' :: ps, s =>
    match s with
    | [] => false
    | _ :: cs => globMatch fuel ps cs
  | fuel + 1, '\\' :: p :: ps, s =>
    match s with
    | c :: cs => c = p && globMatch fuel ps cs
    | [] => false
  | _ + 1, ['\\'], s => s = ['\\']
  | fuel + 1, '[' :: ps, s =>
    let neg := ps.head? = some '^'
    let body := if neg then ps.tail else ps
    let cls := body.takeWhile (· ≠ ']')
    match body.dropWhile (· ≠ ']') with
    | _ :: ps' =>
      (match s with
       | [] => false
       | c :: cs =>
         (if neg then !(cls.contains c) else cls.contains c) &&
           globMatch fuel ps' cs)
    | [] =>
      match s with
      | '[' :: cs => globMatch fuel ps cs
      | _ => false
  | fuel + 1, p :: ps, s =>
    match s with
    | c :: cs => c = p && globMatch fuel ps cs
    | [] => false

/-- `matchPattern(str, pattern)`: the `"*"` fast path from the source, then
the spec-modelled glob (see `globMatch`). -/
def matchPattern (str pattern : String) : Bool :=
  if pattern = "*" then true
  else globMatch (pattern.length + str.length + 1) pattern.toList str.toList

/-- `MemoryStore.Keys`: enumerate keys of the data table that are not
expired and match the pattern (read-only: no reclaim). -/
def KeysM (st : Store) (now : Int) (pattern : String) : List String :=
  (st.data.map Prod.fst).filter
    (fun k => !isExpired st now k && matchPattern k pattern)

/-! ## ZADD -/

structure ZAddOpts where
  nx : Bool := false
  xx : Bool := false
  gt : Bool := false
  lt : Bool := false
  ch : Bool := false
  incr : Bool := false
  deriving Repr, DecidableEq

/-- The per-pair loop of `MemoryStore.ZAdd` (non-INCR): option gating in
source order (NX, XX, GT, LT), then `added`/`changed` accounting and
`set.Add`. -/
def zaddLoop (opts : Option ZAddOpts) :
    List (Int × String) → SortedSetM → Nat → Nat → SortedSetM × Nat × Nat
  | [], set, a, c => (set, a, c)
  | (score, member) :: rest, set, a, c =>
    let old := lookupA set.dict member
    let ex := old.isSome
    let oldScore := old.getD 0
    if optB opts (·.nx) && ex then zaddLoop opts rest set a c
    else if optB opts (·.xx) && !ex then zaddLoop opts rest set a c
    else if optB opts (·.gt) && ex && score ≤ oldScore then
      zaddLoop opts rest set a c
    else if optB opts (·.lt) && ex && score ≥ oldScore then
      zaddLoop opts rest set a c
    else
      zaddLoop opts rest (ssAdd set member score)
        (if ex then a else a + 1)
        (if !ex || oldScore != score then c + 1 else c)

/-- The result values `MemoryStore.ZAdd` can return through its
`interface{}` channel: an added/changed count, INCR's new score, or nil
(INCR suppressed by NX/XX). -/
inductive ZAddVal
  | count (n : Nat)
  | newScore (s : Int)
  | nothing
  deriving Repr, DecidableEq

/-- `MemoryStore.ZAdd` after the get-or-create step: `data₀` is the data
table with the (possibly just created) set already stored, as in the
source, so even the INCR-arity error and the INCR-gated nil leave a
created set behind. -/
def zaddCore (st : Store) (k : String) (set₀ : SortedSetM)
    (data₀ : List (String × Value)) (pairs : List (Int × String))
    (opts : Option ZAddOpts) : Except String ZAddVal × Store :=
  if optB opts (·.incr) then
    match pairs with
    | [(score, member)] =>
      let old := lookupA set₀.dict member
      if optB opts (·.nx) && old.isSome then
        (.ok .nothing, { st with data := data₀ })
      else if optB opts (·.xx) && !old.isSome then
        (.ok .nothing, { st with data := data₀ })
      else
        let newScore := old.getD 0 + score
        (.ok (.newScore newScore),
         { st with data := setA data₀ k (.zset (ssAdd set₀ member newScore)) })
    | _ =>
      (.error "INCR option requires exactly one score-member pair",
       { st with data := data₀ })
  else
    let (set₁, a, c) := zaddLoop opts pairs set₀ 0 0
    (.ok (.count (if optB opts (·.ch) then c else a)),
     { st with data := setA data₀ k (.zset set₁) })

/-- `MemoryStore.ZAdd`: WRONGTYPE on a string value; an absent key gets an
empty sorted set stored immediately; then the INCR path or the pair loop. -/
def ZAddM (st : Store) (k : String) (pairs : List (Int × String))
    (opts : Option ZAddOpts) : Except String ZAddVal × Store :=
  match lookupA st.data k with
  | some (.zset set₀) => zaddCore st k set₀ st.data pairs opts
  | some (.str _) =>
    (.error "WRONGTYPE Operation against a key holding the wrong kind of value",
     st)
  | none => zaddCore st k emptySS (setA st.data k (.zset emptySS)) pairs opts

/-! ## ZRANGE and the sorted-set range operations -/

/-- An element of a range reply: a member, or (under WITHSCORES) a score. -/
inductive ZItem
  | mem (m : String)
  | sc (x : Int)
  deriving Repr, DecidableEq

def zitemOf (withScores : Bool) (n : Int × String) : List ZItem :=
  if withScores then [.mem n.2, .sc n.1] else [.mem n.2]

/-- `SortedSet.Range(start, stop, withScores)`: empty for an empty dict,
else the skip-list range with interleaved scores. -/
def ssRange (s : SortedSetM) (start stop : Int) (withScores : Bool) :
    List ZItem :=
  if s.dict.isEmpty then []
  else (slGetRange s.sl start stop).flatMap (zitemOf withScores)

/-- `SortedSet.RangeByScore(min, max, rev, withScores)`.  The forward
branch drops the prefix below `min` and collects while `≤ max`.  The
reverse branch is transcribed as the source runs it at level 0: the
level-descent only ever skips a *leading* run of nodes with score `> max`
(from the head the next node is the minimum), after which it collects
*forward* while `score ≥ min`. -/
def ssRangeByScore (s : SortedSetM) (lo hi : Int) (rev withScores : Bool) :
    List ZItem :=
  if s.dict.isEmpty then []
  else if rev then
    ((s.sl.dropWhile (fun n => n.1 > hi)).takeWhile (fun n => n.1 ≥ lo)).flatMap
      (zitemOf withScores)
  else
    ((s.sl.dropWhile (fun n => n.1 < lo)).takeWhile (fun n => n.1 ≤ hi)).flatMap
      (zitemOf withScores)

/-- `SortedSet.RangeByLex(min, max, rev)`: scan the append-only `members`
slice (forward or backward) keeping members within the inclusive bounds. -/
def ssRangeByLex (s : SortedSetM) (lo hi : String) (rev : Bool) : List ZItem :=
  ((if rev then s.members.reverse else s.members).filter
    (fun m => lo ≤ m && m ≤ hi)).map .mem

inductive RangeTy
  | score
  | lex
  deriving Repr, DecidableEq

structure ZRangeOpts where
  rangeType : Option RangeTy := none
  rev : Bool := false
  withScores : Bool := false
  limitOffset : Int := 0
  limitCount : Int := 0
  deriving Repr, DecidableEq

/-- The dynamically-typed `start`/`stop` arguments of `MemoryStore.ZRange`
(`int`, `float64` or `string` behind `interface{}`). -/
inductive ZArg
  | intArg (i : Int)
  | numArg (x : Int)
  | strArg (s : String)
  deriving Repr, DecidableEq

/-- `MemoryStore.ZRange`: dispatch on the options' range type with the
source's type assertions on `start`/`stop`; the by-rank branch normalizes
and clamps against `len(dict)` before delegating to `SortedSet.Range`;
then the LIMIT block slices the materialized reply in member-slot units
(doubled under WITHSCORES).  Read-only (no expiry check, no reclaim). -/
def ZRangeM (st : Store) (k : String) (start stop : ZArg)
    (opts : Option ZRangeOpts) : Except String (List ZItem) :=
  match lookupA st.data k with
  | none => .ok []
  | some (.str _) =>
    .error "WRONGTYPE Operation against a key holding the wrong kind of value"
  | some (.zset z) =>
    let withScores := optB opts (·.withScores)
    let base : Except String (List ZItem) :=
      if optB opts (·.rangeType = some .score) then
        match start, stop with
        | .numArg a, .numArg b =>
          .ok (ssRangeByScore z a b (optB opts (·.rev)) withScores)
        | .numArg _, _ => .error "invalid score range stop"
        | _, _ => .error "invalid score range start"
      else if optB opts (·.rangeType = some .lex) then
        match start, stop with
        | .strArg a, .strArg b =>
          .ok (ssRangeByLex z a b (optB opts (·.rev)))
        | .strArg _, _ => .error "invalid lex range stop"
        | _, _ => .error "invalid lex range start"
      else
        match start, stop with
        | .intArg a, .intArg b =>
          let setLen : Int := z.dict.length
          let a₁ := if a < 0 then setLen + a else a
          let b₁ := if b < 0 then setLen + b else b
          let a₂ := if a₁ < 0 then 0 else a₁
          let b₂ := if b₁ ≥ setLen then setLen - 1 else b₁
          if a₂ > b₂ || a₂ ≥ setLen then .ok []
          else .ok (ssRange z a₂ b₂ withScores)
        | .intArg _, _ => .error "invalid index range stop"
        | _, _ => .error "invalid index range start"
    match base with
    | .error e => .error e
    | .ok result =>
      match opts with
      | some o =>
        if o.limitCount > 0 then
          let mult : Int := if withScores then 2 else 1
          let adjOff := o.limitOffset * mult
          let adjCnt := o.limitCount * mult
          if adjOff ≥ result.length then .ok []
          else
            let stop₁ := min (adjOff + adjCnt) (result.length : Int)
            .ok ((result.drop adjOff.toNat).take (stop₁ - adjOff).toNat)
        else .ok result
      | none => .ok result

/-! ## Wire protocol: `internal/resp/parser.go`

The input stream is a `List Char` of bytes; errors are the Go error
strings.  `bufio.Reader` effects are modelled by returning the unconsumed
remainder. -/

/-- `reader.ReadByte()`. -/
def readByteM : List Char → Except String (Char × List Char)
  | [] => .error "EOF"
  | c :: rest => .ok (c, rest)

/-- `Parser.readLine`: `ReadString('\n')` (everything through the first
`'\n'`, EOF error if none), then demand the line ends in CRLF and strip
it. -/
def readLineGo (input : List Char) : Except String (String × List Char) :=
  let pre := input.takeWhile (· ≠ '\n')
  match input.dropWhile (· ≠ '\n') with
  | [] => .error "EOF"
  | _ :: rest =>
    match pre.getLast? with
    | some '\r' => .ok (String.mk pre.dropLast, rest)
    | _ => .error "invalid RESP syntax"

/-- Digit-string accumulator for `strconv.Atoi`: fails on any non-digit. -/
def digitsVal : List Char → Nat → Option Nat
  | [], acc => some acc
  | c :: rest, acc =>
    if c.isDigit then digitsVal rest (10 * acc + (c.toNat - 48)) else none

/-- `strconv.Atoi`: optional sign then one or more digits, nothing else.
(Go's int64 overflow bound is not modelled.) -/
def goAtoi (s : String) : Option Int :=
  match s.toList with
  | [] => none
  | '+' :: rest =>
    match rest with
    | [] => none
    | _ => (digitsVal rest 0).map Int.ofNat
  | '-' :: rest =>
    match rest with
    | [] => none
    | _ => (digitsVal rest 0).map (fun n => -(n : Int))
  | cs => (digitsVal cs 0).map Int.ofNat

/-- `strconv.ParseFloat` restricted to the integral literals that every
claim uses (scores are modelled as `Int`, see the header); literals with a
decimal point or exponent are outside the modelled domain. -/
def goParseFloat (s : String) : Option Int := goAtoi s

/-- `Parser.readInteger`: a CRLF line fed to `Atoi`. -/
def readIntegerM (input : List Char) : Except String (Int × List Char) := do
  let (line, rest) ← readLineGo input
  match goAtoi line with
  | some n => .ok (n, rest)
  | none => .error "invalid RESP syntax"

/-- `Parser.readCRLF`. -/
def readCRLFM (input : List Char) : Except String (List Char) := do
  let (cr, r1) ← readByteM input
  if cr ≠ '\r' then .error "invalid RESP syntax"
  else do
    let (lf, r2) ← readByteM r1
    if lf ≠ '\n' then .error "invalid RESP syntax" else .ok r2

/-- `io.ReadFull`'s successful path: exactly `n` bytes, or `none` when the
stream ends first. -/
def readFullAux : Nat → List Char → Option (List Char × List Char)
  | 0, input => some ([], input)
  | _ + 1, [] => none
  | n + 1, c :: rest => (readFullAux n rest).map (fun p => (c :: p.1, p.2))

/-- `Parser.readBulkString`: a `'$'` tag, a length, and — for a negative
length — an immediate return of the empty string (the null-bulk case);
otherwise exactly `length` payload bytes (`io.ReadFull`: EOF when nothing
at all is available, `unexpected EOF` when only part is) and a closing
CRLF. -/
def readBulkStringM (input : List Char) : Except String (String × List Char) := do
  let (b, r1) ← readByteM input
  if b ≠ '$' then .error "invalid RESP syntax"
  else do
    let (len, r2) ← readIntegerM r1
    if len < 0 then .ok ("", r2)
    else
      match readFullAux len.toNat r2 with
      | none => if r2.isEmpty then .error "EOF" else .error "unexpected EOF"
      | some (data, r3) => do
        let r4 ← readCRLFM r3
        .ok (String.mk data, r4)

/-- The element loop of `Parser.parseArray`. -/
def readNBulks : Nat → List Char → Except String (List String × List Char)
  | 0, input => .ok ([], input)
  | n + 1, input => do
    let (s, r1) ← readBulkStringM input
    let (ss, r2) ← readNBulks n r1
    .ok (s :: ss, r2)

/-- The framing layer of `Parser.Parse` / `Parser.parseArray`: dispatch on
the first byte (everything but `'*'` is rejected), read the element count
(rejecting counts below 1), then that many bulk strings.  The argument
vector is handed on to `createCommand`. -/
def parseElements (input : List Char) : Except String (List String × List Char) := do
  let (b, r1) ← readByteM input
  match b with
  | '*' => do
    let (n, r2) ← readIntegerM r1
    if n < 1 then .error "array length must be positive"
    else readNBulks n.toNat r2
  | '$' => .error "bulk string must be part of an array"
  | '+' => .error "simple string must be part of an array"
  | ':' => .error "integer must be part of an array"
  | '-' => .error "error must be part of an array"
  | _ => .error "invalid RESP syntax"

/-- `strings.ToUpper`, for the ASCII commands and options in scope. -/
def goToUpper (s : String) : String := String.mk (s.data.map Char.toUpper)

/-! ## Command resolution: `createCommand` -/

/-- The typed commands `createCommand` can produce. -/
inductive Command
  | ping
  | echo (msg : String)
  | setCmd (k v : String) (opts : SetOpts)
  | getCmd (k : String)
  | del (keys : List String)
  | expire (k : String) (ttlMs : Int) (opts : ExpireOpts)
  | ttlCmd (k : String)
  | keys (pattern : String)
  | zadd (k : String) (pairs : List (Int × String)) (opts : ZAddOpts)
  | zrange (k : String) (start stop : ZArg) (opts : ZRangeOpts)
  | commandCmd
  deriving Repr, DecidableEq

/-- `SetOptions.Set` (options.go): NX and XX are mutually incompatible,
GET is free. -/
def setOptsSet (o : SetOpts) (name : String) : Except String SetOpts :=
  if name = "NX" then
    if o.xx then .error "option NX is incompatible with XX"
    else .ok { o with nx := true }
  else if name = "XX" then
    if o.nx then .error "option XX is incompatible with NX"
    else .ok { o with xx := true }
  else if name = "GET" then .ok { o with getOld := true }
  else .error ("unknown option: " ++ name)

/-- `ExpireOptions`' `Set`: NX, XX, GT, LT pairwise incompatible.  (The
source reports the clash against an arbitrary map-ordered active option;
the model picks the first in NX, XX, GT, LT order.) -/
def expireOptsSet (o : ExpireOpts) (name : String) : Except String ExpireOpts :=
  let clash : Option String :=
    if o.nx && name ≠ "NX" then some "NX"
    else if o.xx && name ≠ "XX" then some "XX"
    else if o.gt && name ≠ "GT" then some "GT"
    else if o.lt && name ≠ "LT" then some "LT"
    else none
  if name = "NX" then
    match clash with
    | some c => .error ("option NX is incompatible with " ++ c)
    | none => .ok { o with nx := true }
  else if name = "XX" then
    match clash with
    | some c => .error ("option XX is incompatible with " ++ c)
    | none => .ok { o with xx := true }
  else if name = "GT" then
    match clash with
    | some c => .error ("option GT is incompatible with " ++ c)
    | none => .ok { o with gt := true }
  else if name = "LT" then
    match clash with
    | some c => .error ("option LT is incompatible with " ++ c)
    | none => .ok { o with lt := true }
  else .error ("unknown option: " ++ name)

/-- `ZAddOptions`' `Set`, with the source's *asymmetric* incompatibility
lists: NX↔XX, GT↔LT, and INCR declares NX/XX/GT/LT incompatible — but
setting NX after INCR only checks NX's own list. -/
def zaddOptsSet (o : ZAddOpts) (name : String) : Except String ZAddOpts :=
  if name = "NX" then
    if o.xx then .error "option NX is incompatible with XX"
    else .ok { o with nx := true }
  else if name = "XX" then
    if o.nx then .error "option XX is incompatible with NX"
    else .ok { o with xx := true }
  else if name = "GT" then
    if o.lt then .error "option GT is incompatible with LT"
    else .ok { o with gt := true }
  else if name = "LT" then
    if o.gt then .error "option LT is incompatible with GT"
    else .ok { o with lt := true }
  else if name = "CH" then .ok { o with ch := true }
  else if name = "INCR" then
    if o.nx then .error "option INCR is incompatible with NX"
    else if o.xx then .error "option INCR is incompatible with XX"
    else if o.gt then .error "option INCR is incompatible with GT"
    else if o.lt then .error "option INCR is incompatible with LT"
    else .ok { o with incr := true }
  else .error ("unknown option: " ++ name)

/-- The SET option loop of `createCommand` (parser.go:177-208): NX/XX/GET
through `Options.Set`; EX/PX/EXAT/PXAT take a following integer and become
an absolute deadline computed from the parse-time `now`; KEEPTTL takes no
value. -/
def parseSetOpts (now : Int) : List String → SetOpts → Except String SetOpts
  | [], o => .ok o
  | a :: rest, o =>
    let opt := goToUpper a
    if opt = "NX" || opt = "XX" || opt = "GET" then
      match setOptsSet o opt with
      | .error e => .error ("invalid option: " ++ e)
      | .ok o' => parseSetOpts now rest o'
    else if opt = "KEEPTTL" then parseSetOpts now rest { o with expiry := .keepttl }
    else if opt = "EX" || opt = "PX" || opt = "EXAT" || opt = "PXAT" then
      match rest with
      | [] => .error ("option " ++ opt ++ " requires a value")
      | vstr :: rest' =>
        match goAtoi vstr with
        | none => .error ("invalid value for option " ++ opt ++ ": parse error")
        | some v =>
          let t :=
            if opt = "EX" then now + 1000 * v
            else if opt = "PX" then now + v
            else if opt = "EXAT" then 1000 * v
            else v
          parseSetOpts now rest' { o with expiry := .deadline t }
    else .error ("unknown option: " ++ opt)

/-- The EXPIRE option loop of `createCommand` (parser.go:239-244). -/
def parseExpireOpts : List String → ExpireOpts → Except String ExpireOpts
  | [], o => .ok o
  | a :: rest, o =>
    match expireOptsSet o (goToUpper a) with
    | .error e => .error ("invalid option: " ++ e)
    | .ok o' => parseExpireOpts rest o'

/-- The ZADD option loop of `createCommand` (parser.go:275-288).  As in the
source it starts at index 1 — the *key* slot — consuming upper-cased
option tokens until the first non-option, which is returned with the
remainder. -/
def zaddOptConsume : List String → ZAddOpts →
    Except String (ZAddOpts × List String)
  | [], o => .ok (o, [])
  | a :: rest, o =>
    let opt := goToUpper a
    if opt = "NX" || opt = "XX" || opt = "GT" || opt = "LT" || opt = "CH" ||
        opt = "INCR" then
      match zaddOptsSet o opt with
      | .error e => .error ("invalid option: " ++ e)
      | .ok o' => zaddOptConsume rest o'
    else .ok (o, a :: rest)

/-- The ZADD pair loop (parser.go:292-303): `ParseFloat(args[i])` then
`args[i+1]`, two at a time.  On an odd tail whose score parses, the source
indexes `args[i+1]` out of range — a Go runtime panic, surfaced here as an
error. -/
def zaddParsePairs : List String → Except String (List (Int × String))
  | [] => .ok []
  | s :: rest =>
    match goParseFloat s with
    | none => .error ("invalid score value: " ++ s)
    | some sc =>
      match rest with
      | [] => .error "runtime panic: index out of range"
      | m :: rest' => (zaddParsePairs rest').map (fun ps => (sc, m) :: ps)

/-- The ZRANGE option loop of `createCommand` (parser.go:318-352). -/
def zrangeOptLoop : List String → ZRangeOpts → Except String ZRangeOpts
  | [], o => .ok o
  | a :: rest, o =>
    let opt := goToUpper a
    if opt = "BYSCORE" then zrangeOptLoop rest { o with rangeType := some .score }
    else if opt = "BYLEX" then zrangeOptLoop rest { o with rangeType := some .lex }
    else if opt = "REV" then zrangeOptLoop rest { o with rev := true }
    else if opt = "WITHSCORES" then zrangeOptLoop rest { o with withScores := true }
    else if opt = "LIMIT" then
      match rest with
      | ostr :: cstr :: rest' =>
        match goAtoi ostr with
        | none => .error "invalid LIMIT offset"
        | some off =>
          match goAtoi cstr with
          | none => .error "invalid LIMIT count"
          | some cnt =>
            if off < 0 then
              .error "invalid LIMIT parameters: offset must be non-negative"
            else if cnt < 0 then
              .error "invalid LIMIT parameters: count must be non-negative"
            else zrangeOptLoop rest' { o with limitOffset := off, limitCount := cnt }
      | _ => .error "LIMIT option requires offset and count"
    else .error ("unknown option: " ++ opt)

/-- `Parser.createCommand` (parser.go:158-393): upper-case the command
word and build the typed command, mirroring every arity check, option
loop, and value parse of the source — including the ZADD quirks: the
`(len(args)-2) % 2` arity test, the option loop starting at the key slot,
and the extra `i++` before the pair loop. -/
def createCommand (now : Int) (args : List String) : Except String Command :=
  match args with
  | [] => .error "empty command"
  | a0 :: restArgs =>
    let cmd := goToUpper a0
    if cmd = "PING" then .ok .ping
    else if cmd = "ECHO" then
      match restArgs with
      | [msg] => .ok (.echo msg)
      | _ => .error "ECHO command requires exactly 1 argument"
    else if cmd = "SET" then
      match restArgs with
      | k :: v :: optArgs =>
        (parseSetOpts now optArgs {}).map (.setCmd k v)
      | _ => .error "SET command requires at least 2 arguments"
    else if cmd = "GET" then
      match restArgs with
      | [k] => .ok (.getCmd k)
      | _ => .error "GET command requires exactly 1 argument"
    else if cmd = "DEL" then
      match restArgs with
      | [] => .error "DEL command requires at least 1 argument"
      | ks => .ok (.del ks)
    else if cmd = "EXPIRE" then
      match restArgs with
      | k :: ttlStr :: optArgs =>
        match goAtoi ttlStr with
        | none => .error "invalid TTL value"
        | some t => (parseExpireOpts optArgs {}).map (.expire k (t * 1000))
      | _ => .error "EXPIRE command requires at least 2 arguments"
    else if cmd = "TTL" then
      match restArgs with
      | [k] => .ok (.ttlCmd k)
      | _ => .error "TTL command requires exactly 1 argument"
    else if cmd = "KEYS" then
      match restArgs with
      | [p] => .ok (.keys p)
      | _ => .error "KEYS command requires exactly 1 argument"
    else if cmd = "ZADD" then
      if args.length < 4 || (args.length - 2) % 2 ≠ 0 then
        .error "ZADD command requires at least one score-member pair"
      else
        match restArgs with
        | [] => .error "ZADD command requires at least one score-member pair"
        | k :: _ => do
          let (opts, rem) ← zaddOptConsume restArgs {}
          let pairs ← zaddParsePairs rem.tail
          .ok (.zadd k pairs opts)
    else if cmd = "ZRANGE" then
      match restArgs with
      | k :: startStr :: stopStr :: optArgs => do
        let opts ← zrangeOptLoop optArgs {}
        if opts.rangeType = some .score then
          match goParseFloat startStr with
          | none => .error "invalid score range start: parse error"
          | some a =>
            match goParseFloat stopStr with
            | none => .error "invalid score range stop: parse error"
            | some b => .ok (.zrange k (.numArg a) (.numArg b) opts)
        else if opts.rangeType = some .lex then
          .ok (.zrange k (.strArg startStr) (.strArg stopStr) opts)
        else
          match goAtoi startStr with
          | none => .error "invalid start index"
          | some a =>
            match goAtoi stopStr with
            | none => .error "invalid stop index"
            | some b => .ok (.zrange k (.intArg a) (.intArg b) opts)
      | _ => .error "ZRANGE command requires at least 3 arguments"
    else if cmd = "COMMAND" then .ok .commandCmd
    else .error ("unknown command: " ++ cmd)

/-- `Parser.Parse`: frame the request (`parseElements`) and resolve it
(`createCommand`), returning the command and the unconsumed input. -/
def parseCommand (now : Int) (input : List Char) :
    Except String (Command × List Char) := do
  let (elems, rest) ← parseElements input
  let cmd ← createCommand now elems
  .ok (cmd, rest)

/-! ## Command execution and the connection handler

`internal/server/handler.go` plus the `Execute` methods of the command
structs.  `PingCommand`, `EchoCommand`, `SetCommand`, `DelCommand` and
`ZAddCommand` are in `internal/commands/`; the remaining `Execute`s
(`GET`, `EXPIRE`, `TTL`, `KEYS`, `ZRANGE`, `COMMAND`) are one-line
delegations to the store whose files are not in the snapshot — they are
embedded as the delegation their callers and tests exhibit, and `COMMAND`'s
empty-array reply is modelled from the spec (§6). -/

/-- The dynamically-typed results commands push through `interface{}` to
the response writer. -/
inductive GoVal
  | nil
  | int (i : Int)
  | num (x : Int)
  | str (s : String)
  | simple (s : String)
  | list (xs : List GoVal)
  | zsetv (ss : SortedSetM)
  deriving Repr

def zitemVal : ZItem → GoVal
  | .mem m => .str m
  | .sc x => .num x

/-- `DelCommand.Execute` (commands, in `set.go`): probe each key with
`store.Get` — whose value half is nil for missing, expired *and*
wrong-typed keys — and only then `store.Del` it and count it. -/
def delLoop : List String → Store → Int → Nat → Nat × Store
  | [], st, _, n => (n, st)
  | k :: rest, st, now, n =>
    let (g, st₁) := GetM st now k
    match g with
    | .ok (some _) => delLoop rest (DelM st₁ k) now (n + 1)
    | _ => delLoop rest st₁ now n

/-- `Command.Execute` dispatch: each typed command against the store. -/
def execCommand (c : Command) (st : Store) (now : Int) :
    Except String GoVal × Store :=
  match c with
  | .ping => (.ok (.simple "PONG"), st)
  | .echo m => (.ok (.str m), st)
  | .setCmd k v o =>
    match SetM st k (.str v) (some o) with
    | (.error e, st') => (.error e, st')
    | (.ok old, st') =>
      (.ok (match old with
            | none => .nil
            | some (.str s) => .str s
            | some (.zset z) => .zsetv z), st')
  | .getCmd k =>
    match GetM st now k with
    | (.error e, st') => (.error e, st')
    | (.ok none, st') => (.ok .nil, st')
    | (.ok (some v), st') => (.ok (.str v), st')
  | .del ks =>
    let (n, st') := delLoop ks st now 0
    (.ok (.int n), st')
  | .expire k t o =>
    match ExpireM st now k t (some o) with
    | (.error e, st') => (.error e, st')
    | (.ok (), st') => (.ok .nil, st')
  | .ttlCmd k =>
    let (v, st') := TTLM st now k
    (.ok (.int v), st')
  | .keys p => (.ok (.list ((KeysM st now p).map .str)), st)
  | .zadd k ps o =>
    match ZAddM st k ps (some o) with
    | (.error e, st') => (.error e, st')
    | (.ok (.count n), st') => (.ok (.int n), st')
    | (.ok (.newScore s), st') => (.ok (.num s), st')
    | (.ok .nothing, st') => (.ok .nil, st')
  | .zrange k a b o =>
    match ZRangeM st k a b (some o) with
    | .error e => (.error e, st)
    | .ok items => (.ok (.list (items.map zitemVal)), st)
  | .commandCmd => (.ok (.list []), st)

/-- What `Handler.Handle` writes back on one iteration: a serialized
response (`writeResponse`) or a serialized error (`writeError`).  The
response writer's byte format lives in a file outside the snapshot; the
claims about the loop only need the write events themselves. -/
inductive HEvent
  | resp (v : GoVal)
  | errResp (e : String)
  deriving Repr

/-- `Handler.Handle` (in the server source): parse one request — a raw
`"EOF"` ends the loop cleanly, any other parse error (framing *or* command
resolution, both come out of `Parser.Parse`) terminates it with a wrapped
error — execute it, write an error response and continue on an execution
error, else write the response and continue.  Write failures (socket I/O)
are outside the model; fuel bounds the number of iterations and one unit
is spent per request, so any fuel above the request count is ample. -/
def handleLoop : Nat → Store → Int → List Char → List HEvent × Option String
  | 0, _, _, _ => ([], none)
  | fuel + 1, st, now, input =>
    match parseCommand now input with
    | .error e =>
      if e = "EOF" then ([], none)
      else ([], some ("error parsing command: " ++ e))
    | .ok (cmd, rest) =>
      match execCommand cmd st now with
      | (.error e, st') =>
        let (evs, t) := handleLoop fuel st' now rest
        (.errResp e :: evs, t)
      | (.ok v, st') =>
        let (evs, t) := handleLoop fuel st' now rest
        (.resp v :: evs, t)

/-! ## Operation sequences over the store (for the lazy-expiry claims) -/

/-- One store-level SET/DEL/EXPIRE invocation, carrying its own clock
reading where the operation consults the clock. -/
inductive SOp
  | setOp (k v : String) (opts : Option SetOpts)
  | delOp (k : String)
  | expireOp (now : Int) (k : String) (ttlMs : Int) (opts : Option ExpireOpts)

def applySOp (st : Store) : SOp → Store
  | .setOp k v o => (SetM st k (.str v) o).2
  | .delOp k => DelM st k
  | .expireOp now k t o => (ExpireM st now k t o).2

def applySOps (ops : List SOp) (st : Store) : Store := ops.foldl applySOp st

/-! ## Spec-side ZADD gating (for the refinement claim C6)

These two definitions follow the wording of spec §4.B, to be compared with
the embedded `MemoryStore.ZAdd`. -/

/-- Spec §4.B step 2, as written: a pair is skipped iff `NX` and the member
exists, `XX` and it is absent, `GT` and it exists with
`new_score ≤ old_score`, or `LT` and it exists with
`new_score ≥ old_score`. -/
def zaddSpecSkip (opts : Option ZAddOpts) (ex : Bool) (oldScore newScore : Int) :
    Bool :=
  (optB opts (·.nx) && ex) || (optB opts (·.xx) && !ex) ||
    (optB opts (·.gt) && ex && newScore ≤ oldScore) ||
    (optB opts (·.lt) && ex && newScore ≥ oldScore)

/-- Spec §4.B steps 1–4, as written: process the pairs in input order over
the member→score mapping, skipping per `zaddSpecSkip`, and count `added`
(newly created members) and `changed` (newly created, or score changed). -/
def zaddSpecFold (opts : Option ZAddOpts) :
    List (Int × String) → List (String × Int) →
      List (String × Int) × Nat × Nat
  | [], d => (d, 0, 0)
  | (score, member) :: rest, d =>
    let old := lookupA d member
    if zaddSpecSkip opts old.isSome (old.getD 0) score then
      zaddSpecFold opts rest d
    else
      let (d', a, c) := zaddSpecFold opts rest (setA d member score)
      (d', (if old.isSome then 0 else 1) + a,
           (if !old.isSome || old.getD 0 != score then 1 else 0) + c)

/-! ## Association-list lemmas -/

theorem lookupA_setA {α : Type} (l : List (String × α)) (k : String) (v : α)
    (key : String) :
    lookupA (setA l k v) key = if k = key then some v else lookupA l key := by
  induction l with
  | nil => simp [setA, lookupA]
  | cons p rest ih =>
    obtain ⟨a, b⟩ := p
    by_cases hak : a = k
    · subst hak
      by_cases hk : a = key <;> simp [setA, lookupA, hk]
    · by_cases hk : a = key
      · subst hk
        have : ¬ k = a := fun h => hak h.symm
        simp [setA, lookupA, hak, this]
      · simp [setA, lookupA, hak, hk, ih]

theorem lookupA_eraseA_ne {α : Type} (l : List (String × α)) {k key : String}
    (h : k ≠ key) : lookupA (eraseA l k) key = lookupA l key := by
  induction l with
  | nil => simp [eraseA]
  | cons p rest ih =>
    obtain ⟨a, b⟩ := p
    by_cases hak : a = k
    · subst hak
      have h1 : ¬ a = key := fun hk => h (hk ▸ rfl)
      simp [eraseA, lookupA, h1]
    · by_cases hk : a = key
      · subst hk
        have h2 : ¬ a = k := hak
        simp [eraseA, h2, lookupA]
      · simp [eraseA, hak, lookupA, hk, ih]

theorem lookupA_eq_none {α : Type} {l : List (String × α)} {key : String}
    (h : key ∉ l.map Prod.fst) : lookupA l key = none := by
  induction l with
  | nil => rfl
  | cons p rest ih =>
    obtain ⟨a, b⟩ := p
    have h1 : ¬ a = key := fun he => h (by simp [he])
    have h2 : key ∉ rest.map Prod.fst := fun hm => h (by simp [hm])
    simp [lookupA, h1, ih h2]

theorem eraseA_sublist {α : Type} (l : List (String × α)) (k : String) :
    (eraseA l k).Sublist l := by
  induction l with
  | nil => simp [eraseA]
  | cons p rest ih =>
    obtain ⟨a, b⟩ := p
    by_cases hak : a = k
    · simp only [eraseA, hak, if_pos rfl]
      exact (List.sublist_cons_self _ _)
    · simpa [eraseA, hak] using ih.cons₂ (a, b)

theorem mem_of_lookupA {α : Type} {l : List (String × α)} {key : String}
    {v : α} (h : lookupA l key = some v) : (key, v) ∈ l := by
  induction l with
  | nil => simp [lookupA] at h
  | cons p rest ih =>
    obtain ⟨a, b⟩ := p
    by_cases hk : a = key
    · subst hk
      simp [lookupA] at h
      simp [h]
    · simp [lookupA, hk] at h
      exact List.mem_cons_of_mem _ (ih h)

theorem mem_setA {α : Type} {l : List (String × α)} {k : String} {v : α}
    {p : String × α} (h : p ∈ setA l k v) : p = (k, v) ∨ p ∈ l := by
  induction l with
  | nil => simpa [setA] using h
  | cons q rest ih =>
    obtain ⟨a, b⟩ := q
    by_cases hak : a = k
    · subst hak
      simp [setA] at h
      rcases h with h | h
      · exact Or.inl h
      · exact Or.inr (List.mem_cons_of_mem _ h)
    · simp [setA, hak] at h
      rcases h with h | h
      · exact Or.inr (by simp [h])
      · rcases ih h with h' | h'
        · exact Or.inl h'
        · exact Or.inr (List.mem_cons_of_mem _ h')

theorem fst_mem_setA {α : Type} (l : List (String × α)) (k : String) (v : α)
    (x : String) :
    x ∈ (setA l k v).map Prod.fst ↔ x ∈ l.map Prod.fst ∨ x = k := by
  induction l with
  | nil => simp [setA]
  | cons q rest ih =>
    obtain ⟨a, b⟩ := q
    by_cases hak : a = k
    · subst hak
      simp [setA]
      tauto
    · simp [setA, hak, ih]
      tauto

theorem nodup_setA {α : Type} {l : List (String × α)} (k : String) (v : α)
    (h : (l.map Prod.fst).Nodup) : ((setA l k v).map Prod.fst).Nodup := by
  induction l with
  | nil => simp [setA]
  | cons q rest ih =>
    obtain ⟨a, b⟩ := q
    rw [List.map_cons, List.nodup_cons] at h
    obtain ⟨ha, hrest⟩ := h
    by_cases hak : a = k
    · subst hak
      rw [setA, if_pos rfl, List.map_cons, List.nodup_cons]
      exact ⟨ha, hrest⟩
    · rw [setA, if_neg hak, List.map_cons, List.nodup_cons]
      constructor
      · intro hmem
        rcases (fst_mem_setA rest k v a).mp hmem with h' | h'
        · exact ha h'
        · exact hak h'
      · exact ih hrest

theorem lookupA_eraseA_self {α : Type} {l : List (String × α)} {k : String}
    (h : (l.map Prod.fst).Nodup) : lookupA (eraseA l k) k = none := by
  induction l with
  | nil => simp [eraseA, lookupA]
  | cons q rest ih =>
    obtain ⟨a, b⟩ := q
    rw [List.map_cons, List.nodup_cons] at h
    obtain ⟨ha, hrest⟩ := h
    by_cases hak : a = k
    · subst hak
      rw [eraseA, if_pos rfl]
      exact lookupA_eq_none ha
    · rw [eraseA, if_neg hak, lookupA, if_neg hak]
      exact ih hrest

/-! ## Reachability invariant for SET/DEL/EXPIRE sequences -/

/-- Well-formedness of a data table reached through string commands only:
every stored value is a string, and keys are not duplicated. -/
def WFdata (l : List (String × Value)) : Prop :=
  (∀ p ∈ l, ∃ s, p.2 = Value.str s) ∧ (l.map Prod.fst).Nodup

theorem WFdata_setA_str {l : List (String × Value)} (k : String) (v : String)
    (h : WFdata l) : WFdata (setA l k (.str v)) := by
  constructor
  · intro p hp
    rcases mem_setA hp with h' | h'
    · exact ⟨v, by rw [h']⟩
    · exact h.1 p h'
  · exact nodup_setA k _ h.2

theorem WFdata_eraseA {l : List (String × Value)} (k : String)
    (h : WFdata l) : WFdata (eraseA l k) := by
  constructor
  · intro p hp
    exact h.1 p ((eraseA_sublist l k).subset hp)
  · exact ((eraseA_sublist l k).map Prod.fst).nodup h.2

theorem SetM_data (st : Store) (k : String) (v : Value) (o : Option SetOpts) :
    (SetM st k v o).2.data = st.data ∨ (SetM st k v o).2.data = setA st.data k v := by
  unfold SetM
  dsimp only
  split_ifs <;> simp

theorem ExpireM_data (st : Store) (now : Int) (k : String) (t : Int)
    (o : Option ExpireOpts) :
    (ExpireM st now k t o).2.data = st.data ∨
      (ExpireM st now k t o).2.data = eraseA st.data k := by
  unfold ExpireM
  dsimp only
  split_ifs with h1 h2
  · left; rfl
  · rcases o with _ | oo
    · simp
    · rcases he : lookupA st.expires k with _ | e <;> dsimp only <;>
        split_ifs <;> simp
  · rcases o with _ | oo
    · simp
    · rcases he : lookupA st.expires k with _ | e <;> dsimp only <;>
        split_ifs <;> simp

theorem WFdata_applySOp (st : Store) (op : SOp) (h : WFdata st.data) :
    WFdata (applySOp st op).data := by
  cases op with
  | setOp k v o =>
    show WFdata (SetM st k (.str v) o).2.data
    rcases SetM_data st k (.str v) o with h' | h' <;> rw [h']
    · exact h
    · exact WFdata_setA_str k v h
  | delOp k =>
    exact WFdata_eraseA k h
  | expireOp now k t o =>
    show WFdata (ExpireM st now k t o).2.data
    rcases ExpireM_data st now k t o with h' | h' <;> rw [h']
    · exact h
    · exact WFdata_eraseA k h

theorem WFdata_applySOps (ops : List SOp) :
    ∀ st : Store, WFdata st.data → WFdata (applySOps ops st).data := by
  induction ops with
  | nil => intro st h; exact h
  | cons op rest ih =>
    intro st h
    exact ih (applySOp st op) (WFdata_applySOp st op h)

theorem WFdata_empty : WFdata emptyStore.data := by
  constructor
  · intro p hp
    simp [emptyStore] at hp
  · simp [emptyStore]

theorem ttl_get_coherence (st : Store) (h : WFdata st.data) (now : Int)
    (k : String) :
    (GetM (TTLM st now k).2 now k).1 = .ok none ↔ (TTLM st now k).1 = -2 := by
  unfold TTLM
  rcases hd : lookupA st.data k with _ | v
  · simp only [hd, Option.isNone_none, if_pos rfl]
    unfold GetM
    by_cases he : isExpired st now k
    · simp [he]
    · simp [he, hd]
  · have hv := h.1 (k, v) (mem_of_lookupA hd)
    obtain ⟨s, rfl⟩ := hv
    rcases hx : lookupA st.expires k with _ | e
    · simp only [hd, Option.isNone_some, Bool.false_eq_true, if_neg, hx]
      unfold GetM isExpired
      simp [hx, hd]
    · by_cases hr : e - now ≤ 0
      · simp only [hd, Option.isNone_some, Bool.false_eq_true, if_neg, hx,
          if_pos hr]
        unfold GetM isExpired
        rcases hx2 : lookupA (eraseA st.expires k) k with _ | e2
        · simp [hx2, lookupA_eraseA_self h.2]
        · by_cases h3 : now > e2
          · simp [hx2, h3]
          · simp [hx2, h3, lookupA_eraseA_self h.2]
      · simp only [hd, Option.isNone_some, Bool.false_eq_true, if_neg, hx,
          if_neg hr]
        have h1 : ¬ now > e := by omega
        have h2 : 0 ≤ Int.tdiv (e - now) 1000 := by
          apply Int.tdiv_nonneg <;> omega
        unfold GetM isExpired
        simp [hx, h1, hd]
        omega

/-- C8: after any sequence of SET, DEL and EXPIRE operations (each carrying
its own clock reading), and for every key `k` and every instant `now`,
`TTL(k)` returns −2 exactly when `GET(k)`, called immediately afterwards at
the same instant on the state `TTL` left behind, returns null — `TTL`'s
lazy reclaim of a key whose deadline is past makes the subsequent `GET`
observe it as absent, and at the deadline instant itself `TTL`'s
`remaining ≤ 0` reclaim fires before `GET` can still see the value. -/
theorem C8_ttl_get_lazy_expiry_coherence (ops : List SOp) (now : Int)
    (k : String) :
    (GetM (TTLM (applySOps ops emptyStore) now k).2 now k).1 = .ok none ↔
      (TTLM (applySOps ops emptyStore) now k).1 = -2 :=
  ttl_get_coherence (applySOps ops emptyStore)
    (WFdata_applySOps ops emptyStore WFdata_empty) now k

theorem zaddLoop_spec (opts : Option ZAddOpts) (pairs : List (Int × String)) :
    ∀ (set : SortedSetM) (a c : Nat),
      (zaddLoop opts pairs set a c).1.dict =
          (zaddSpecFold opts pairs set.dict).1 ∧
        (zaddLoop opts pairs set a c).2.1 =
          a + (zaddSpecFold opts pairs set.dict).2.1 ∧
        (zaddLoop opts pairs set a c).2.2 =
          c + (zaddSpecFold opts pairs set.dict).2.2 := by
  induction pairs with
  | nil => intro set a c; simp [zaddLoop, zaddSpecFold]
  | cons p rest ih =>
    intro set a c
    obtain ⟨score, member⟩ := p
    have hd : (ssAdd set member score).dict = setA set.dict member score := rfl
    rcases hopt : lookupA set.dict member with _ | oldv
    · by_cases hxx : optB opts (·.xx) = true
      · simp [zaddLoop, zaddSpecFold, zaddSpecSkip, hopt, hxx, ih]
      · simp [zaddLoop, zaddSpecFold, zaddSpecSkip, hopt, hxx, ih, hd]
        obtain ⟨d', da, dc⟩ := zaddSpecFold opts rest (setA set.dict member score)
        simp
        omega
    · by_cases hnx : optB opts (·.nx) = true
      · simp [zaddLoop, zaddSpecFold, zaddSpecSkip, hopt, hnx, ih]
      · by_cases hgtB : optB opts (·.gt) = true <;>
          by_cases hltB : optB opts (·.lt) = true <;>
          by_cases hoe : oldv = score <;>
          by_cases hsle : score ≤ oldv <;>
          by_cases hsge : oldv ≤ score <;>
          simp [zaddLoop, zaddSpecFold, zaddSpecSkip, hopt, hnx, hgtB, hltB,
            hoe, hsle, hsge, ih, hd] <;>
          first
          | omega
          | (obtain ⟨d', da, dc⟩ :=
              zaddSpecFold opts rest (setA set.dict member score)
             simp
             omega)

/-- C6: for every ZADD call without INCR (on a key holding a sorted set or
absent, in which case processing starts from the empty set), the result and
the final member→score mapping are exactly those of the spec's fold: pairs
processed in input order, a pair skipped exactly when NX∧exists, XX∧absent,
GT∧exists∧new≤old or LT∧exists∧new≥old (`zaddSpecSkip`), the return value
being the count of newly created members, or of created-or-score-changed
members under CH. -/
theorem C6_zadd_gating_and_return (st : Store) (k : String)
    (pairs : List (Int × String)) (opts : Option ZAddOpts) (set₀ : SortedSetM)
    (hincr : optB opts (·.incr) = false)
    (hk : lookupA st.data k = some (.zset set₀) ∨
      (lookupA st.data k = none ∧ set₀ = emptySS)) :
    (ZAddM st k pairs opts).1 =
        .ok (.count (if optB opts (·.ch) then
          (zaddSpecFold opts pairs set₀.dict).2.2
        else (zaddSpecFold opts pairs set₀.dict).2.1)) ∧
      ∃ set₁, lookupA (ZAddM st k pairs opts).2.data k = some (.zset set₁) ∧
        set₁.dict = (zaddSpecFold opts pairs set₀.dict).1 := by
  obtain ⟨h1, h2, h3⟩ := zaddLoop_spec opts pairs set₀ 0 0
  rcases hk with hk | ⟨hk, rfl⟩
  · unfold ZAddM zaddCore
    rw [hk]
    simp only [hincr, Bool.false_eq_true, if_neg]
    refine ⟨?_, (zaddLoop opts pairs set₀ 0 0).1, ?_, ?_⟩
    · simp [h2, h3]
    · simp [lookupA_setA]
    · exact h1
  · unfold ZAddM zaddCore
    rw [hk]
    simp only [hincr, Bool.false_eq_true, if_neg]
    refine ⟨?_, (zaddLoop opts pairs emptySS 0 0).1, ?_, ?_⟩
    · simp [h2, h3]
    · simp [lookupA_setA]
    · exact h1

theorem C6_zadd_gating_and_return_witness :
    (ZAddM emptyStore "z" [(1, "a")] (none : Option ZAddOpts)).1 =
        .ok (.count (if optB (none : Option ZAddOpts) (·.ch) then
          (zaddSpecFold none [(1, "a")] emptySS.dict).2.2
        else (zaddSpecFold none [(1, "a")] emptySS.dict).2.1)) ∧
      ∃ set₁,
        lookupA (ZAddM emptyStore "z" [(1, "a")]
            (none : Option ZAddOpts)).2.data "z" = some (.zset set₁) ∧
          set₁.dict = (zaddSpecFold none [(1, "a")] emptySS.dict).1 :=
  C6_zadd_gating_and_return emptyStore "z" [(1, "a")] none emptySS rfl
    (Or.inr ⟨rfl, rfl⟩)

theorem zaddCore_data (st : Store) (k : String) (set₀ : SortedSetM)
    (data₀ : List (String × Value)) (pairs : List (Int × String))
    (opts : Option ZAddOpts) :
    ((zaddCore st k set₀ data₀ pairs opts).2.data = data₀ ∨
      ∃ ss, (zaddCore st k set₀ data₀ pairs opts).2.data =
        setA data₀ k (.zset ss)) ∧
      (zaddCore st k set₀ data₀ pairs opts).2.expires = st.expires := by
  unfold zaddCore
  dsimp only
  split_ifs <;> (try split) <;> (try split_ifs) <;>
    exact ⟨by first | (left; rfl) | exact Or.inr ⟨_, rfl⟩, rfl⟩

theorem lookupA_fst_mem {α : Type} {l : List (String × α)} {k : String}
    {v : α} (h : lookupA l k = some v) : k ∈ l.map Prod.fst := by
  have := mem_of_lookupA h
  exact List.mem_map.mpr ⟨(k, v), this, rfl⟩

/-- C10: ZADD on a key absent from the store (no value, no deadline) stores
an empty sorted set under the key before any gating, so whatever the pairs
and options — even when every pair is suppressed, e.g. by XX — the key
exists afterwards: a sorted-set value sits in the data table, `KEYS "*"`
lists the key, and GET on it returns the WRONGTYPE error instead of null. -/
theorem C10_zadd_creates_set_before_gating (st : Store) (k : String)
    (pairs : List (Int × String)) (opts : Option ZAddOpts) (now₂ : Int)
    (hd : lookupA st.data k = none) (hx : lookupA st.expires k = none) :
    (∃ ss, lookupA (ZAddM st k pairs opts).2.data k = some (.zset ss)) ∧
      k ∈ KeysM (ZAddM st k pairs opts).2 now₂ "*" ∧
      (GetM (ZAddM st k pairs opts).2 now₂ k).1 =
        .error "WRONGTYPE Operation against a key holding a sorted set" := by
  have hz : ZAddM st k pairs opts =
      zaddCore st k emptySS (setA st.data k (.zset emptySS)) pairs opts := by
    unfold ZAddM
    rw [hd]
  obtain ⟨hdata, hexp⟩ :=
    zaddCore_data st k emptySS (setA st.data k (.zset emptySS)) pairs opts
  have hlook : ∃ ss,
      lookupA (ZAddM st k pairs opts).2.data k = some (.zset ss) := by
    rw [hz]
    rcases hdata with h | ⟨ss, h⟩
    · exact ⟨emptySS, by rw [h, lookupA_setA]; simp⟩
    · exact ⟨ss, by rw [h, lookupA_setA]; simp⟩
  obtain ⟨ss, hss⟩ := hlook
  have hexp2 : (ZAddM st k pairs opts).2.expires = st.expires := by
    rw [hz]; exact hexp
  have hne : isExpired (ZAddM st k pairs opts).2 now₂ k = false := by
    unfold isExpired
    rw [hexp2, hx]
  refine ⟨⟨ss, hss⟩, ?_, ?_⟩
  · unfold KeysM
    rw [List.mem_filter]
    refine ⟨lookupA_fst_mem hss, ?_⟩
    rw [hne]
    simp [matchPattern]
  · unfold GetM
    rw [hne]
    simp [hss]

theorem C10_zadd_creates_set_before_gating_witness :
    (∃ ss, lookupA (ZAddM emptyStore "z" [(5, "q")]
        (some { xx := true })).2.data "z" = some (.zset ss)) ∧
      "z" ∈ KeysM (ZAddM emptyStore "z" [(5, "q")]
        (some { xx := true })).2 0 "*" ∧
      (GetM (ZAddM emptyStore "z" [(5, "q")]
          (some { xx := true })).2 0 "z").1 =
        .error "WRONGTYPE Operation against a key holding a sorted set" :=
  C10_zadd_creates_set_before_gating emptyStore "z" [(5, "q")]
    (some { xx := true }) 0 rfl rfl

/-- C1: the claimed sorted-set invariant fails on the code.  After the
ZADD sequence `ZADD z 1 m`; `ZADD z 2 m` the member→score mapping holds the
single pair ("m", 2) while the skip-list index holds both (1, "m") and
(2, "m"): the member occurs twice, the two structures do not contain the
same pairs, and this is exactly the score-change case the claim singles
out.  (`insert` examines only the node adjacent to the new key's position
for a duplicate member, so the stale node at the old score survives.) -/
theorem C1_zadd_duplicate_member_in_index :
    ∃ ss, lookupA (ZAddM (ZAddM emptyStore "z" [(1, "m")] none).2 "z"
          [(2, "m")] none).2.data "z" = some (.zset ss) ∧
        ss.dict = [("m", 2)] ∧ ss.sl = [(1, "m"), (2, "m")] ∧
        ss.sl.length ≠ ss.dict.length := by
  refine ⟨⟨[("m", 2)], [(1, "m"), (2, "m")], [1, 2], ["m", "m"]⟩, ?_, rfl, rfl,
    by decide⟩
  rfl

/-- C2: `skiplist.insert` violates the claimed contract.  Inserting
(1, "m") into the empty list returns true as claimed, but the follow-up
`insert(2, "m")` — member present with a different score — returns *true*
instead of false, does not remove the old pair, and grows the length from 1
to 2, leaving the member duplicated. -/
theorem C2_insert_duplicates_present_member :
    slInsert [] 1 "m" = ([(1, "m")], true) ∧
      slInsert [(1, "m")] 2 "m" = ([(1, "m"), (2, "m")], true) :=
  ⟨rfl, rfl⟩

/-- C3 (counterexample): a request resolving to an unknown command does
*not* produce an error response with the loop continuing — `createCommand`'s
error surfaces through `Parser.Parse`, so `Handler.Handle` terminates the
connection with a wrapped parse error and writes nothing. -/
theorem C3_unknown_command_terminates_connection :
    handleLoop 2 emptyStore 0 (String.toList "*1\r\n$4\r\nBLAH\r\n") =
      ([], some "error parsing command: unknown command: BLAH") := rfl

/-- C3 (amended): for every connection state, a parse-stage outcome — which
includes unknown commands, bad arguments and bad options, since command
resolution happens inside `Parser.Parse` — drives the loop as follows: a
raw EOF terminates cleanly; any other parse error terminates the connection
with a wrapped error and no response; a parsed command whose *execution*
returns a store-level error (e.g. WRONGTYPE or gating failure) has that
error written as an error response and the read-dispatch loop continues on
the remaining input. -/
theorem C3_handler_error_dichotomy (fuel : Nat) (st : Store) (now : Int)
    (input : List Char) :
    (parseCommand now input = .error "EOF" →
        handleLoop (fuel + 1) st now input = ([], none)) ∧
      (∀ e, parseCommand now input = .error e → e ≠ "EOF" →
        handleLoop (fuel + 1) st now input =
          ([], some ("error parsing command: " ++ e))) ∧
      (∀ cmd rest e st', parseCommand now input = .ok (cmd, rest) →
        execCommand cmd st now = (.error e, st') →
        handleLoop (fuel + 1) st now input =
          (.errResp e :: (handleLoop fuel st' now rest).1,
            (handleLoop fuel st' now rest).2)) := by
  refine ⟨?_, ?_, ?_⟩
  · intro h
    simp [handleLoop, h]
  · intro e h hne
    simp [handleLoop, h, hne]
  · intro cmd rest e st' h hx
    simp [handleLoop, h, hx]

/-- C3 (witness): `SET k w NX` on a store where `k` exists is a store-level
execution error; the handler writes it as an error response and continues. -/
theorem C3_handler_error_dichotomy_witness :
    handleLoop 2 (SetM emptyStore "k" (.str "v") none).2 0
        (String.toList "*4\r\n$3\r\nSET\r\n$1\r\nk\r\n$1\r\nw\r\n$2\r\nNX\r\n") =
      (.errResp "key already exists" ::
          (handleLoop 1 (SetM emptyStore "k" (.str "v") none).2 0 []).1,
        (handleLoop 1 (SetM emptyStore "k" (.str "v") none).2 0 []).2) :=
  (C3_handler_error_dichotomy 1 (SetM emptyStore "k" (.str "v") none).2 0
      (String.toList "*4\r\n$3\r\nSET\r\n$1\r\nk\r\n$1\r\nw\r\n$2\r\nNX\r\n")).2.2
    _ [] "key already exists" _ rfl rfl

/-- C4: DEL does not delete live sorted-set keys.  `DelCommand.Execute`
probes each key with `store.Get`, whose value half is nil for a sorted set
(it returns the WRONGTYPE error instead), so a store holding the sorted set
`z` answers `DEL z` with 0 and is left completely unchanged — against the
claim that every live key is removed whatever its kind. -/
theorem C4_del_skips_sorted_set_key :
    (execCommand (.del ["z"]) (ZAddM emptyStore "z" [(1, "m")] none).2 0).1 =
        .ok (.int 0) ∧
      (execCommand (.del ["z"]) (ZAddM emptyStore "z" [(1, "m")] none).2 0).2 =
        (ZAddM emptyStore "z" [(1, "m")] none).2 :=
  ⟨rfl, rfl⟩

/-- C5 (counterexample): a null bulk string (`$-1`) as a request element is
*accepted* and treated as the empty string, not rejected — the frame
`*2 $3 GET $-1` parses into the elements ["GET", ""] and resolves to a GET
command with an empty key. -/
theorem C5_null_bulk_element_accepted :
    parseElements (String.toList "*2\r\n$3\r\nGET\r\n$-1\r\n") =
        .ok (["GET", ""], []) ∧
      parseCommand 0 (String.toList "*2\r\n$3\r\nGET\r\n$-1\r\n") =
        .ok (.getCmd "", []) :=
  ⟨rfl, rfl⟩

/-- C5 (amended): the request parser accepts exactly the non-empty arrays
of bulk strings, except that a null bulk element is accepted as the empty
string: a top-level simple string, integer, error or bare bulk string is
rejected; an array length below 1 is rejected; an element not starting with
`'$'` is rejected; a bulk payload not terminated by CRLF is rejected; and a
`$-1` element yields `""` with the rest of the stream untouched. -/
theorem C5_request_framing_amended (rest : List Char) (b c : Char)
    (hb : b ≠ '$') (hc : c ≠ '\r') :
    parseElements ('+' :: rest) =
        .error "simple string must be part of an array" ∧
      parseElements (':' :: rest) = .error "integer must be part of an array" ∧
      parseElements ('-' :: rest) = .error "error must be part of an array" ∧
      parseElements ('$' :: rest) =
        .error "bulk string must be part of an array" ∧
      parseElements (String.toList "*0\r\n" ++ rest) =
        .error "array length must be positive" ∧
      parseElements (String.toList "*-1\r\n" ++ rest) =
        .error "array length must be positive" ∧
      readBulkStringM (b :: rest) = .error "invalid RESP syntax" ∧
      readBulkStringM (String.toList "$1\r\nx" ++ c :: rest) =
        .error "invalid RESP syntax" ∧
      readBulkStringM (String.toList "$-1\r\n" ++ rest) = .ok ("", rest) := by
  refine ⟨rfl, rfl, rfl, rfl, rfl, rfl, ?_, ?_, rfl⟩
  · simp [readBulkStringM, readByteM, Bind.bind, Except.bind, hb]
  · simp [readBulkStringM, readByteM, readIntegerM, readLineGo, readFullAux,
      readCRLFM, goAtoi, digitsVal, Bind.bind, Except.bind, hc]

/-- C5 (witness): the amended framing properties at an empty remainder,
with `'x'` as a non-`'$'` element tag and `'y'` as a non-CR terminator. -/
theorem C5_request_framing_amended_witness :
    parseElements ['+'] = .error "simple string must be part of an array" ∧
      readBulkStringM ['x'] = .error "invalid RESP syntax" ∧
      readBulkStringM (String.toList "$1\r\nx" ++ 'y' :: []) =
        .error "invalid RESP syntax" ∧
      readBulkStringM (String.toList "$-1\r\n" ++ []) = .ok ("", []) :=
  ⟨(C5_request_framing_amended [] 'x' 'y' (by decide) (by decide)).1,
    (C5_request_framing_amended [] 'x' 'y' (by decide)
      (by decide)).2.2.2.2.2.2.1,
    (C5_request_framing_amended [] 'x' 'y' (by decide)
      (by decide)).2.2.2.2.2.2.2.1,
    (C5_request_framing_amended [] 'x' 'y' (by decide)
      (by decide)).2.2.2.2.2.2.2.2⟩

/-- C7: reverse ZRANGE BYSCORE is broken on the code.  On the set built by
`ZADD z 1 a 2 b 3 c`, the claim demands that the inclusive reverse range
[2, 3] contain exactly c then b; the source's reverse walk advances forward
pointers while `score > max` — from the head it never advances — then
collects forward while `score ≥ min`, so it stops at a (score 1 < 2)
immediately and returns the empty reply. -/
theorem C7_zrange_rev_byscore_empty :
    ZRangeM (ZAddM emptyStore "z" [(1, "a"), (2, "b"), (3, "c")] none).2 "z"
        (.numArg 2) (.numArg 3)
        (some { rangeType := some .score, rev := true }) = .ok [] := rfl

/-- C9: the ZADD parser does not accept option tokens after the key.  The
claim's own example `ZADD k NX 1 m` is rejected outright: the arity check
`(len(args)-2) % 2 == 0` already fails for the five-token form (and the
option loop starts at the key slot with an extra `i++` after it, so even
even-length forms mis-consume their arguments). -/
theorem C9_zadd_parser_rejects_option_form :
    createCommand 0 ["ZADD", "k", "NX", "1", "m"] =
      .error "ZADD command requires at least one score-member pair" := rfl

end CandyKV
